import Mathlib

/- Verification of the compass client (src/static/app.js): quiz pagination by
axis, answer-map state, score interpretation, score formatting, and the
result-key lifecycle. JavaScript numbers are modelled as `JSNum` (a rational
or one of the non-finite values), JSON-ish values reaching `interpretAxisScore`
as `JSVal`, and JS objects used as ordered dictionaries as insertion-ordered
association lists. -/

namespace Compass

/-- Model of a JavaScript number: a finite rational or one of the non-finite
values (`NaN`, `Infinity`, `-Infinity`). -/
inductive JSNum where
  | finite (q : ℚ)
  | nan
  | posInf
  | negInf
deriving DecidableEq

/-- Model of a value that can reach `getAxisNumber`: a number or a string. -/
inductive JSVal where
  | num (n : JSNum)
  | str (s : String)
deriving DecidableEq

/-- Numeric value of a list of decimal digit characters. -/
def digitsVal (cs : List Char) : Nat :=
  cs.foldl (fun n c => 10 * n + (c.toNat - 48)) 0

/-- True when every character is a decimal digit. -/
def allDigits (cs : List Char) : Bool :=
  cs.all (fun c => c.isDigit)

/-- Parses an unsigned decimal literal (digits, optional fraction part). -/
def parseDecimal (cs : List Char) : Option ℚ :=
  let intPart := cs.takeWhile (fun c => c != '.')
  let rest := cs.dropWhile (fun c => c != '.')
  match rest with
  | [] =>
      if intPart.isEmpty then none
      else if allDigits intPart then some (digitsVal intPart : ℚ) else none
  | _ :: frac =>
      if frac.any (fun c => c == '.') then none
      else if intPart.isEmpty && frac.isEmpty then none
      else if allDigits intPart && allDigits frac then
        some ((digitsVal intPart : ℚ) + (digitsVal frac : ℚ) / ((10 : ℚ) ^ frac.length))
      else none

/-- True for the ASCII whitespace characters stripped by JS `trim`. -/
def jsIsSpace (c : Char) : Bool :=
  c == ' ' || c == '\t' || c == '\n' || c == '\r'

/-- Structural model of JS `String.prototype.trim` on ASCII whitespace. -/
def jsTrim (s : String) : String :=
  String.mk (((s.data.dropWhile jsIsSpace).reverse.dropWhile jsIsSpace).reverse)

/-- Uppercases one ASCII letter (model of JS `toUpperCase` on the characters
the key alphabet uses). -/
def jsUpChar (c : Char) : Char :=
  if 97 ≤ c.toNat ∧ c.toNat ≤ 122 then Char.ofNat (c.toNat - 32) else c

/-- Structural model of JS `String.prototype.toUpperCase` (ASCII letters). -/
def jsToUpper (s : String) : String :=
  String.mk (s.data.map jsUpChar)

/-- Models the ECMAScript `Number()` coercion on strings, for plain decimal
literals (optional sign, digits, optional fraction); whitespace-only strings
coerce to `0`, anything else to `NaN`. Exponent and hex forms are omitted:
every property proved below about the coercion path is independent of which
strings this parser accepts. -/
def jsParseNumber (s : String) : JSNum :=
  let t := jsTrim s
  if t = "" then .finite 0
  else
    match t.data with
    | '+' :: rest =>
        match parseDecimal rest with
        | some q => .finite q
        | none => .nan
    | '-' :: rest =>
        match parseDecimal rest with
        | some q => .finite (-q)
        | none => .nan
    | cs =>
        match parseDecimal cs with
        | some q => .finite q
        | none => .nan

/-- Models JS `Number(val)` on the values that can reach `getAxisNumber`. -/
def jsToNumber : JSVal → JSNum
  | .num n => n
  | .str s => jsParseNumber s

/-- Models `Number.isFinite`, returning the finite value when there is one. -/
def toFiniteOption : JSNum → Option ℚ
  | .finite q => some q
  | _ => none

/-- From app.js: `const num = Number(val); return Number.isFinite(num) ? num : null;`. -/
def getAxisNumber (val : JSVal) : Option ℚ :=
  toFiniteOption (jsToNumber val)

/-- JS truncation toward zero (the integer part used by the `%` operator). -/
def jsTrunc (q : ℚ) : ℤ :=
  if 0 ≤ q then ⌊q⌋ else ⌈q⌉

/-- Renders an integer number of tenths the way JS `String()` renders the
corresponding number `t / 10`: no trailing `.0` when the value is whole. -/
def tenthsToString (t : ℤ) : String :=
  if t % 10 = 0 then toString (t / 10)
  else (if t < 0 then "-" else "") ++ toString (t.natAbs / 10) ++ "." ++ toString (t.natAbs % 10)

/-- From app.js `formatAxisValue`:
`if (!Number.isFinite(val)) return "--";`
`const rounded = Math.abs(val % 1) < 0.001 ? Math.round(val) : Number(val.toFixed(1));`
`return rounded > 0 ? "+" + rounded : String(rounded);`
`val % 1` is `val - jsTrunc val`; `Math.round` is `⌊q + 1/2⌋`; `toFixed(1)`
rounds to tenths with ties toward positive infinity, and `Number(...)` of that
string is the rational with denominator 10. The result is carried here as an
integer count of tenths (`Math.round val` contributes `10 * ⌊val + 1/2⌋`)
and rendered by `tenthsToString`, which matches JS `String()` on both
branches. -/
def formatAxisValue : JSNum → String
  | .finite q =>
      let roundedTenths : ℤ :=
        if |q - (jsTrunc q : ℚ)| < 1 / 1000 then 10 * ⌊q + 1 / 2⌋
        else ⌊10 * q + 1 / 2⌋
      if 0 < roundedTenths then "+" ++ tenthsToString roundedTenths
      else tenthsToString roundedTenths
  | _ => "--"

/-- Spec-side renderer for the amended C3 claim: always round to one decimal
place (ties toward positive infinity) and render without the decimal point
exactly when the rounded value is whole, with a leading `+` exactly when it is
positive. -/
def specFormatRounded : JSNum → String
  | .finite q =>
      let t : ℤ := ⌊10 * q + 1 / 2⌋
      if 0 < t then "+" ++ tenthsToString t else tenthsToString t
  | _ => "--"

/-- Shared band pattern of every known-axis case of the `switch` in
`interpretAxisScore`: `strong = |score| ≥ 7`, `moderate = |score| ≥ 3`, then
`if (strong && score > 0) return sp; if (moderate && score > 0) return mp;`
`if (strong && score < 0) return sn; if (moderate && score < 0) return mn;`
`return neu;`. -/
def interpretCore (sp mp sn mn neu : String) (score : ℚ) : String :=
  if 7 ≤ |score| ∧ 0 < score then sp
  else if 3 ≤ |score| ∧ 0 < score then mp
  else if 7 ≤ |score| ∧ score < 0 then sn
  else if 3 ≤ |score| ∧ score < 0 then mn
  else neu

/-- From app.js `interpretAxisScore`: coerce the raw value, return the fixed
insufficient-data string when non-finite, otherwise dispatch on the axis with
the hand-authored band strings; unknown axes hit the `default` case. -/
def interpretAxisScore (axis : String) (raw : JSVal) : String :=
  match getAxisNumber raw with
  | none => "Sem dados suficientes para este eixo."
  | some score =>
      if axis = "economic" then
          interpretCore
            "Forte preferência por mercado, concorrência e menor intervenção estatal."
            "Inclinação a soluções de mercado com regulação moderada."
            "Defesa intensa da atuação estatal, redistribuição e proteção social."
            "Tendência a políticas estatais e maior regulação econômica."
            "Equilíbrio entre atuação do Estado e do mercado conforme o contexto."
            score
      else if axis = "social" then
          interpretCore
            "Valorização de normas tradicionais, autoridade e regulação de costumes."
            "Tendência a conservar costumes e limitar mudanças bruscas em pautas sociais."
            "Defesa forte de liberdades civis, autonomia individual e pluralismo."
            "Inclinação liberal em costumes, com pouca interferência estatal."
            "Postura moderada em temas de costumes e liberdades individuais."
            score
      else if axis = "community" then
          interpretCore
            "Prioriza identidade coletiva, coesão social e laços nacionais."
            "Valoriza raízes locais e deveres com a comunidade."
            "Visão cosmopolita, foco no indivíduo e na cooperação internacional."
            "Inclinação universalista, com identidades mais fluidas e abertas."
            "Equilibra pertencimento comunitário com abertura cosmopolita."
            score
      else if axis = "method" then
          interpretCore
            "Prefere mudanças graduais, prudentes e institucionalizadas."
            "Favorece reformas incrementais e pactuadas."
            "Aceita transformações mais rápidas, experimentação e reformismo intenso."
            "Inclinação a intervenções planejadas e inovação mais acelerada."
            "Ajusta entre gradualismo e mudança rápida conforme o tema."
            score
      else if axis = "pragmatism" then
          interpretCore
            "Orientação fortemente pragmática: prioriza resultados práticos e negociáveis."
            "Mais pragmático que idealista, aberto a acordos para avançar."
            "Visão idealista ou utópica, priorizando princípios sobre a negociação."
            "Inclinação idealista, com menos foco em compromissos imediatos."
            "Equilibra pragmatismo e idealismo dependendo do contexto."
            score
      else "Eixo fora do conjunto principal."

/-- Strong positive-pole string for each known axis (table read off the
`switch` in `interpretAxisScore`; arbitrary on unknown axes). -/
def strongPosText (axis : String) : String :=
  match axis with
  | "economic" => "Forte preferência por mercado, concorrência e menor intervenção estatal."
  | "social" => "Valorização de normas tradicionais, autoridade e regulação de costumes."
  | "community" => "Prioriza identidade coletiva, coesão social e laços nacionais."
  | "method" => "Prefere mudanças graduais, prudentes e institucionalizadas."
  | "pragmatism" => "Orientação fortemente pragmática: prioriza resultados práticos e negociáveis."
  | _ => ""

/-- Moderate positive-pole string for each known axis. -/
def modPosText (axis : String) : String :=
  match axis with
  | "economic" => "Inclinação a soluções de mercado com regulação moderada."
  | "social" => "Tendência a conservar costumes e limitar mudanças bruscas em pautas sociais."
  | "community" => "Valoriza raízes locais e deveres com a comunidade."
  | "method" => "Favorece reformas incrementais e pactuadas."
  | "pragmatism" => "Mais pragmático que idealista, aberto a acordos para avançar."
  | _ => ""

/-- Strong negative-pole string for each known axis. -/
def strongNegText (axis : String) : String :=
  match axis with
  | "economic" => "Defesa intensa da atuação estatal, redistribuição e proteção social."
  | "social" => "Defesa forte de liberdades civis, autonomia individual e pluralismo."
  | "community" => "Visão cosmopolita, foco no indivíduo e na cooperação internacional."
  | "method" => "Aceita transformações mais rápidas, experimentação e reformismo intenso."
  | "pragmatism" => "Visão idealista ou utópica, priorizando princípios sobre a negociação."
  | _ => ""

/-- Moderate negative-pole string for each known axis. -/
def modNegText (axis : String) : String :=
  match axis with
  | "economic" => "Tendência a políticas estatais e maior regulação econômica."
  | "social" => "Inclinação liberal em costumes, com pouca interferência estatal."
  | "community" => "Inclinação universalista, com identidades mais fluidas e abertas."
  | "method" => "Inclinação a intervenções planejadas e inovação mais acelerada."
  | "pragmatism" => "Inclinação idealista, com menos foco em compromissos imediatos."
  | _ => ""

/-- Neutral-band string for each known axis. -/
def neutralText (axis : String) : String :=
  match axis with
  | "economic" => "Equilíbrio entre atuação do Estado e do mercado conforme o contexto."
  | "social" => "Postura moderada em temas de costumes e liberdades individuais."
  | "community" => "Equilibra pertencimento comunitário com abertura cosmopolita."
  | "method" => "Ajusta entre gradualismo e mudança rápida conforme o tema."
  | "pragmatism" => "Equilibra pragmatismo e idealismo dependendo do contexto."
  | _ => ""

/-- From app.js: the canonical axis ordering `axisOrder`. -/
def axisOrder : List String :=
  ["economic", "social", "community", "method", "pragmatism"]

/-- From app.js `normalizeResultId`:
`if (!value) return ""; return value.trim().toUpperCase();` (the only falsy
string is the empty one; `trim`/`toUpperCase` are modelled by the structural
ASCII `jsTrim`/`jsToUpper`, which agree with JS on the key alphabet). -/
def normalizeResultId (value : String) : String :=
  if value = "" then "" else jsToUpper (jsTrim value)

/-- True for the uppercase alphanumeric characters `[A-Z0-9]`. -/
def isUpperAlnum (c : Char) : Bool :=
  ('A' ≤ c && c ≤ 'Z') || ('0' ≤ c && c ≤ '9')

/-- Executable model of `RESULT_ID_REGEX = /^IDEO-[A-Z0-9]{4}-[A-Z0-9]{4}$/`. -/
def resultIdMatches (s : String) : Bool :=
  let cs := s.toList
  cs.length == 14 &&
  cs.take 5 == "IDEO-".toList &&
  ((cs.drop 5).take 4).all isUpperAlnum &&
  (cs.drop 9).take 1 == ['-'] &&
  (cs.drop 10).all isUpperAlnum

/-- Outcome of the synchronous part of `handleRetrieveSubmit`: which message
is shown, or which key is sent to the network lookup. -/
inductive RetrieveAction where
  | promptForKey
  | invalidFormat
  | lookup (key : String)
deriving DecidableEq

/-- From app.js `handleRetrieveSubmit`:
`const rawValue = normalizeResultId(input.value);`
`if (!rawValue) { ...prompt message...; return; }`
`if (!RESULT_ID_REGEX.test(rawValue)) { ...invalid-format message...; return; }`
`... await loadResultById(rawValue) ...`. -/
def handleRetrieveSubmit (input : String) : RetrieveAction :=
  let rawValue := normalizeResultId input
  if rawValue = "" then .promptForKey
  else if resultIdMatches rawValue then .lookup rawValue
  else .invalidFormat

/-- A question record as fetched from `/api/questions`: `{id, axis, text}`.
`axis = none` models a missing/null axis; `some ""` models an empty one (both
are falsy in JS). -/
structure Question where
  id : String
  axis : Option String
  text : String
deriving DecidableEq

/-- The grouping key used by `buildPagesByAxis`: `const axis = q.axis || "other";`
only a falsy axis (absent or empty) falls back to `"other"`. -/
def effAxis (q : Question) : String :=
  match q.axis with
  | none => "other"
  | some a => if a = "" then "other" else a

/-- One quiz page: an axis identifier and its questions. -/
structure Page where
  axis : String
  questions : List Question
deriving DecidableEq

/-- Models `byAxis[axis].push(q)` with creation of a fresh entry: JS objects
with non-index string keys enumerate in insertion order, so `byAxis` is an
insertion-ordered association list and a new key is appended at the end. -/
def insertQuestion : List (String × List Question) → String → Question → List (String × List Question)
  | [], a, q => [(a, [q])]
  | (b, l) :: rest, a, q =>
      if b = a then (b, l ++ [q]) :: rest
      else (b, l) :: insertQuestion rest a q

/-- The first grouping loop of `buildPagesByAxis`:
`for (const q of questions) { const axis = q.axis || "other"; ... byAxis[axis].push(q); }`. -/
def groupByAxis (qs : List Question) : List (String × List Question) :=
  qs.foldl (fun acc q => insertQuestion acc (effAxis q) q) []

/-- Key lookup in the ordered dictionary (`byAxis[axis]`). -/
def lookupAxis : List (String × List Question) → String → Option (List Question)
  | [], _ => none
  | (b, l) :: rest, a => if b = a then some l else lookupAxis rest a

/-- From app.js `buildPagesByAxis`: after grouping, push a page for each
canonical axis present (deleting it from `byAxis`), then a page for every
remaining key in insertion order. Deleting the canonical keys and walking
`Object.keys` of what is left is the same as filtering the canonical keys
out of the insertion-ordered entries. -/
def buildPagesByAxis (qs : List Question) : List Page :=
  let byAxis := groupByAxis qs
  (axisOrder.filterMap fun a => (lookupAxis byAxis a).map fun l => Page.mk a l) ++
  ((byAxis.filter fun p => decide (p.1 ∉ axisOrder)).map fun p => Page.mk p.1 p.2)

/-- Concatenation of the questions of a list of pages, in page order. -/
def pagesQuestions (ps : List Page) : List Question :=
  ps.foldr (fun p acc => p.questions ++ acc) []

/-- First occurrence of each element not already seen, in order of first
appearance (used to state the insertion order of `byAxis`'s keys). -/
def firstSeenFrom (seen : List String) : List String → List String
  | [] => []
  | a :: rest =>
      if a ∈ seen then firstSeenFrom seen rest
      else a :: firstSeenFrom (seen ++ [a]) rest

/-- Helper for stating page contents: the concatenation, over a list of axes,
of the input questions carrying each axis. -/
def filterConcat (qs : List Question) : List String → List Question
  | [] => []
  | a :: rest => qs.filter (fun q => decide (effAxis q = a)) ++ filterConcat qs rest

/-- The profile object returned by the scoring service, as far as the client
reads it (`profile?.key`, `profile?.label`; the rest is passed through to
display code). -/
structure ProfileData where
  key : Option String
  label : Option String
deriving DecidableEq

/-- The profile used when `data.profile` is falsy (`data.profile || {}`). -/
def emptyProfile : ProfileData := ProfileData.mk none none

/-- The answer map `answers`: a JS object keyed by question id, modelled as an
insertion-ordered association list. -/
abbrev AnswerMap := List (String × Int)

/-- Models `answers[qId] = newValue`: overwrite in place when the key exists,
otherwise append. -/
def setAnswer (m : AnswerMap) (k : String) (v : Int) : AnswerMap :=
  if m.any (fun p => p.1 == k) then m.map (fun p => if p.1 = k then (k, v) else p)
  else m ++ [(k, v)]

/-- A result payload as consumed by `handleResult` (from `/api/submit` plus
overrides, or from `/api/result/{id}`): optional axes object, profile, the
`result_id` and `id` fields, and an optional answers object. `none` models a
missing/null field; `some` a present object (even an empty one is truthy). -/
structure ResultData where
  axes : Option (List (String × JSNum))
  profile : Option ProfileData
  result_id : Option String
  id : Option String
  answers : Option AnswerMap
deriving DecidableEq

/-- The `latestResult` view model: `{ axes, profile, answers: data.answers || answers }`. -/
structure LatestResult where
  axes : List (String × JSNum)
  profile : ProfileData
  answers : AnswerMap
deriving DecidableEq

/-- JS `a || b` on optional strings, where both a missing value and the empty
string are falsy. -/
def jsOrStr (a b : Option String) : Option String :=
  match a with
  | some s => if s = "" then b else some s
  | none => b

/-- The module-level mutable state of app.js that the claims touch. -/
structure AppState where
  answers : AnswerMap
  currentPageIndex : Nat
  pages : List Page
  latestResult : Option LatestResult
  latestResultId : Option String
deriving DecidableEq

/-- From app.js `handleResult(data)`:
`const axes = data.axes || {}; const profile = data.profile || {};`
`const resultId = data.result_id || data.id || null;`
`latestResult = { axes, profile, answers: data.answers || answers };`
`latestResultId = resultId;`
`if (data.answers) { answers = data.answers; }`
(display-only DOM work omitted). -/
def handleResult (s : AppState) (data : ResultData) : AppState :=
  let axes := data.axes.getD []
  let profile := data.profile.getD emptyProfile
  let resultId := jsOrStr data.result_id (jsOrStr data.id none)
  { s with
    latestResult := some (LatestResult.mk axes profile (data.answers.getD s.answers)),
    latestResultId := resultId,
    answers := data.answers.getD s.answers }

/-- The scoring response of `POST /api/submit`: `{axes, profile}` (the
external contract carries no `result_id` or `id` field). -/
structure ScoreResponse where
  axes : Option (List (String × JSNum))
  profile : Option ProfileData
deriving DecidableEq

/-- Outcome of the `/api/submit` fetch: the parsed body, or a thrown error
(network failure or non-ok response). -/
inductive SubmitFetch where
  | ok (data : ScoreResponse)
  | failed
deriving DecidableEq

/-- Outcome of `saveResultToServer`: the `result_id` of the response body
(possibly absent), or a thrown error (network failure or non-ok response). -/
inductive SaveOutcome where
  | ok (rid : Option String)
  | failed
deriving DecidableEq

/-- Messages and display effects emitted by one `submitAnswers` run. -/
structure SubmitReport where
  keyWarning : Bool
  keySuccess : Bool
  fatalError : Bool
  displayedResult : Bool
deriving DecidableEq

/-- From app.js `submitAnswers`, with the two awaited fetches abstracted into
their outcomes: on submit failure only the fatal quiz message is shown; on
success, `saveResultToServer` is attempted, a failure there is caught and
downgraded to a warning with `resultId = null`, and in either case
`handleResult({...data, result_id: resultId, answers})` runs. -/
def submitAnswers (s : AppState) (submitRes : SubmitFetch) (saveRes : SaveOutcome) :
    AppState × SubmitReport :=
  match submitRes with
  | .failed => (s, SubmitReport.mk false false true false)
  | .ok data =>
      match saveRes with
      | .ok rid =>
          let rd := ResultData.mk data.axes data.profile rid none (some s.answers)
          (handleResult s rd, SubmitReport.mk false true false true)
      | .failed =>
          let rd := ResultData.mk data.axes data.profile none none (some s.answers)
          (handleResult s rd, SubmitReport.mk true false false true)

/-- The user-facing operations on the session state that the claims quantify
over: recording an answer, the prev/next page buttons, a successful retrieval
(`answers = data.answers || {}; handleResult(data);`), and `resetQuiz`. -/
inductive Op where
  | record (qid : String) (v : Int)
  | prevBtn
  | nextBtn
  | retrieveOk (data : ResultData)
  | reset
deriving DecidableEq

/-- One step of the session state machine. `prevBtn`/`nextBtn` are the click
handlers (a `nextBtn` click on the last page triggers `submitAnswers`, whose
effect on the state is modelled by `submitAnswers` above and which leaves the
page index unchanged); `retrieveOk` is the success path of
`handleRetrieveSubmit`; `reset` is `resetQuiz`. -/
def step (s : AppState) : Op → AppState
  | .record qid v => { s with answers := setAnswer s.answers qid v }
  | .prevBtn =>
      if 0 < s.currentPageIndex then { s with currentPageIndex := s.currentPageIndex - 1 }
      else s
  | .nextBtn =>
      if s.currentPageIndex + 1 < s.pages.length then
        { s with currentPageIndex := s.currentPageIndex + 1 }
      else s
  | .retrieveOk data => handleResult { s with answers := data.answers.getD [] } data
  | .reset =>
      { s with
        answers := [],
        latestResult := none,
        latestResultId := none,
        currentPageIndex := 0 }

theorem interpretCore_strongPos (sp mp sn mn neu : String) (q : ℚ) (h : 7 ≤ q) :
    interpretCore sp mp sn mn neu q = sp := by
  have h0 : 0 < q := by linarith
  have habs : |q| = q := abs_of_pos h0
  unfold interpretCore
  rw [if_pos ⟨by rw [habs]; exact h, h0⟩]

theorem interpretCore_strongNeg (sp mp sn mn neu : String) (q : ℚ) (h : q ≤ -7) :
    interpretCore sp mp sn mn neu q = sn := by
  have h0 : q < 0 := by linarith
  have habs : |q| = -q := abs_of_neg h0
  unfold interpretCore
  rw [if_neg (fun hc => absurd hc.2 (by linarith)),
    if_neg (fun hc => absurd hc.2 (by linarith)),
    if_pos ⟨by rw [habs]; linarith, h0⟩]

theorem interpretCore_modPos (sp mp sn mn neu : String) (q : ℚ) (h3 : 3 ≤ q) (h7 : q < 7) :
    interpretCore sp mp sn mn neu q = mp := by
  have h0 : 0 < q := by linarith
  have habs : |q| = q := abs_of_pos h0
  unfold interpretCore
  rw [if_neg (fun hc => absurd hc.1 (by rw [habs]; exact not_le.mpr h7)),
    if_pos ⟨by rw [habs]; exact h3, h0⟩]

theorem interpretCore_modNeg (sp mp sn mn neu : String) (q : ℚ) (h3 : q ≤ -3) (h7 : -7 < q) :
    interpretCore sp mp sn mn neu q = mn := by
  have h0 : q < 0 := by linarith
  have habs : |q| = -q := abs_of_neg h0
  unfold interpretCore
  rw [if_neg (fun hc => absurd hc.2 (by linarith)),
    if_neg (fun hc => absurd hc.2 (by linarith)),
    if_neg (fun hc => absurd hc.1 (by rw [habs]; exact not_le.mpr (by linarith))),
    if_pos ⟨by rw [habs]; linarith, h0⟩]

theorem interpretCore_neutral (sp mp sn mn neu : String) (q : ℚ) (h : |q| < 3) :
    interpretCore sp mp sn mn neu q = neu := by
  unfold interpretCore
  rw [if_neg (fun hc => absurd hc.1 (by linarith)),
    if_neg (fun hc => absurd hc.1 (by linarith)),
    if_neg (fun hc => absurd hc.1 (by linarith)),
    if_neg (fun hc => absurd hc.1 (by linarith))]

theorem interpretCore_ne (sp mp sn mn neu tgt : String) (q : ℚ)
    (h1 : sp ≠ tgt) (h2 : mp ≠ tgt) (h3 : sn ≠ tgt) (h4 : mn ≠ tgt) (h5 : neu ≠ tgt) :
    interpretCore sp mp sn mn neu q ≠ tgt := by
  unfold interpretCore
  split_ifs <;> assumption

theorem interpretAxisScore_finite (axis : String) (v : JSVal) (q : ℚ)
    (hv : getAxisNumber v = some q) :
    interpretAxisScore axis v =
      if axis = "economic" then
        interpretCore (strongPosText axis) (modPosText axis) (strongNegText axis)
          (modNegText axis) (neutralText axis) q
      else if axis = "social" then
        interpretCore (strongPosText axis) (modPosText axis) (strongNegText axis)
          (modNegText axis) (neutralText axis) q
      else if axis = "community" then
        interpretCore (strongPosText axis) (modPosText axis) (strongNegText axis)
          (modNegText axis) (neutralText axis) q
      else if axis = "method" then
        interpretCore (strongPosText axis) (modPosText axis) (strongNegText axis)
          (modNegText axis) (neutralText axis) q
      else if axis = "pragmatism" then
        interpretCore (strongPosText axis) (modPosText axis) (strongNegText axis)
          (modNegText axis) (neutralText axis) q
      else "Eixo fora do conjunto principal." := by
  unfold interpretAxisScore
  rw [hv]
  split_ifs with he hs hc hm hp <;>
    simp_all [strongPosText, modPosText, strongNegText, modNegText, neutralText]

theorem interpretAxisScore_known (axis : String) (hax : axis ∈ axisOrder) (v : JSVal) (q : ℚ)
    (hv : getAxisNumber v = some q) :
    interpretAxisScore axis v =
      interpretCore (strongPosText axis) (modPosText axis) (strongNegText axis)
        (modNegText axis) (neutralText axis) q := by
  rw [interpretAxisScore_finite axis v q hv]
  fin_cases hax <;> simp

theorem interpretAxisScore_unknown (axis : String) (hax : axis ∉ axisOrder) (v : JSVal) (q : ℚ)
    (hv : getAxisNumber v = some q) :
    interpretAxisScore axis v = "Eixo fora do conjunto principal." := by
  rw [interpretAxisScore_finite axis v q hv]
  simp only [axisOrder, List.mem_cons, List.not_mem_nil, or_false, not_or] at hax
  rw [if_neg hax.1, if_neg hax.2.1, if_neg hax.2.2.1, if_neg hax.2.2.2.1, if_neg hax.2.2.2.2]

theorem interpretAxisScore_nonfinite (axis : String) (v : JSVal)
    (hv : getAxisNumber v = none) :
    interpretAxisScore axis v = "Sem dados suficientes para este eixo." := by
  unfold interpretAxisScore
  rw [hv]

/-- C2: for a non-finite score `interpretAxisScore` returns the fixed
insufficient-data string; for each of the five known axes and a finite score
it returns the strong positive-pole string when `score ≥ 7`, the strong
negative-pole string when `score ≤ -7`, the moderate positive string when
`3 ≤ score < 7`, the moderate negative string when `-7 < score ≤ -3`, and the
neutral string when `|score| < 3`; any other axis with a finite score gets the
fixed outside-core-set string. In particular the strong interpretations of
`economic` at `8` and `-8` are distinct, `economic` at `1` is neutral, and
`unknown_axis` at `5` is the outside-core-set string. -/
theorem interpretAxisScore_bands_spec :
    (∀ (axis : String) (v : JSVal), getAxisNumber v = none →
        interpretAxisScore axis v = "Sem dados suficientes para este eixo.")
  ∧ (∀ axis ∈ axisOrder, ∀ q : ℚ,
        (7 ≤ q → interpretAxisScore axis (.num (.finite q)) = strongPosText axis)
      ∧ (q ≤ -7 → interpretAxisScore axis (.num (.finite q)) = strongNegText axis)
      ∧ (3 ≤ q → q < 7 → interpretAxisScore axis (.num (.finite q)) = modPosText axis)
      ∧ (-7 < q → q ≤ -3 → interpretAxisScore axis (.num (.finite q)) = modNegText axis)
      ∧ (|q| < 3 → interpretAxisScore axis (.num (.finite q)) = neutralText axis))
  ∧ (∀ axis : String, axis ∉ axisOrder → ∀ q : ℚ,
        interpretAxisScore axis (.num (.finite q)) = "Eixo fora do conjunto principal.")
  ∧ interpretAxisScore "economic" (.num (.finite 8))
      ≠ interpretAxisScore "economic" (.num (.finite (-8)))
  ∧ interpretAxisScore "economic" (.num (.finite 1)) = neutralText "economic"
  ∧ interpretAxisScore "unknown_axis" (.num (.finite 5))
      = "Eixo fora do conjunto principal." := by
  refine ⟨?_, ?_, ?_, ?_, ?_, ?_⟩
  · exact fun axis v hv => interpretAxisScore_nonfinite axis v hv
  · intro axis hax q
    have hq : getAxisNumber (.num (.finite q)) = some q := rfl
    rw [interpretAxisScore_known axis hax (.num (.finite q)) q hq]
    exact ⟨fun h => interpretCore_strongPos _ _ _ _ _ _ h,
      fun h => interpretCore_strongNeg _ _ _ _ _ _ h,
      fun h1 h2 => interpretCore_modPos _ _ _ _ _ _ h1 h2,
      fun h1 h2 => interpretCore_modNeg _ _ _ _ _ _ h2 h1,
      fun h => interpretCore_neutral _ _ _ _ _ _ h⟩
  · intro axis hax q
    exact interpretAxisScore_unknown axis hax (.num (.finite q)) q rfl
  · have h1 : interpretAxisScore "economic" (.num (.finite 8)) = strongPosText "economic" := by
      rw [interpretAxisScore_known "economic" (by decide) (.num (.finite 8)) 8 rfl]
      exact interpretCore_strongPos _ _ _ _ _ _ (by norm_num)
    have h2 : interpretAxisScore "economic" (.num (.finite (-8))) = strongNegText "economic" := by
      rw [interpretAxisScore_known "economic" (by decide) (.num (.finite (-8))) (-8) rfl]
      exact interpretCore_strongNeg _ _ _ _ _ _ (by norm_num)
    rw [h1, h2]
    decide
  · rw [interpretAxisScore_known "economic" (by decide) (.num (.finite 1)) 1 rfl]
    exact interpretCore_neutral _ _ _ _ _ _ (by rw [abs_of_pos] <;> norm_num)
  · exact interpretAxisScore_unknown "unknown_axis" (by decide) (.num (.finite 5)) 5 rfl

/-- Witness for `interpretAxisScore_bands_spec`: concrete instances
discharging the hypotheses of each band (known axis `economic`, scores `8`,
`-8`, `4`, `-4`, `1`, and unknown axis `zz` at `5`). -/
theorem interpretAxisScore_bands_spec_witness :
    interpretAxisScore "economic" (.num (.finite 8)) = strongPosText "economic"
  ∧ interpretAxisScore "economic" (.num (.finite (-8))) = strongNegText "economic"
  ∧ interpretAxisScore "economic" (.num (.finite 4)) = modPosText "economic"
  ∧ interpretAxisScore "economic" (.num (.finite (-4))) = modNegText "economic"
  ∧ interpretAxisScore "economic" (.num (.finite 1)) = neutralText "economic"
  ∧ interpretAxisScore "zz" (.num (.finite 5)) = "Eixo fora do conjunto principal."
  ∧ interpretAxisScore "economic" (.num .nan) = "Sem dados suficientes para este eixo." := by
  have h := interpretAxisScore_bands_spec
  have hk : ("economic" : String) ∈ axisOrder := by decide
  refine ⟨(h.2.1 "economic" hk 8).1 (by norm_num),
    (h.2.1 "economic" hk (-8)).2.1 (by norm_num),
    (h.2.1 "economic" hk 4).2.2.1 (by norm_num) (by norm_num),
    (h.2.1 "economic" hk (-4)).2.2.2.1 (by norm_num) (by norm_num),
    (h.2.1 "economic" hk 1).2.2.2.2 (by rw [abs_of_pos] <;> norm_num),
    h.2.2.1 "zz" (by decide) 5,
    h.1 "economic" (.num .nan) rfl⟩

theorem interpretAxisScore_ne_insufficient (axis : String) (v : JSVal) (q : ℚ)
    (hv : getAxisNumber v = some q) :
    interpretAxisScore axis v ≠ "Sem dados suficientes para este eixo." := by
  rw [interpretAxisScore_finite axis v q hv]
  split_ifs with h1 h2 h3 h4 h5
  · subst h1
    exact interpretCore_ne _ _ _ _ _ _ q (by decide) (by decide) (by decide) (by decide) (by decide)
  · subst h2
    exact interpretCore_ne _ _ _ _ _ _ q (by decide) (by decide) (by decide) (by decide) (by decide)
  · subst h3
    exact interpretCore_ne _ _ _ _ _ _ q (by decide) (by decide) (by decide) (by decide) (by decide)
  · subst h4
    exact interpretCore_ne _ _ _ _ _ _ q (by decide) (by decide) (by decide) (by decide) (by decide)
  · subst h5
    exact interpretCore_ne _ _ _ _ _ _ q (by decide) (by decide) (by decide) (by decide) (by decide)
  · decide

/-- C10: `interpretAxisScore` coerces its raw input with `Number` before
classifying, so a string that parses to a finite number is interpreted exactly
like that number (e.g. `"8"` like `8`), and the insufficient-data message is
returned exactly when the coerced value is not finite. -/
theorem interpretAxisScore_numberCoercion :
    (∀ (axis s : String) (q : ℚ), jsParseNumber s = JSNum.finite q →
        interpretAxisScore axis (.str s) = interpretAxisScore axis (.num (.finite q)))
  ∧ (∀ (axis : String) (v : JSVal),
        interpretAxisScore axis v = "Sem dados suficientes para este eixo."
          ↔ getAxisNumber v = none)
  ∧ interpretAxisScore "economic" (.str "8")
      = interpretAxisScore "economic" (.num (.finite 8)) := by
  have coerce : ∀ (axis s : String) (q : ℚ), jsParseNumber s = JSNum.finite q →
      interpretAxisScore axis (.str s) = interpretAxisScore axis (.num (.finite q)) := by
    intro axis s q h
    have hs : getAxisNumber (.str s) = some q := by
      show toFiniteOption (jsParseNumber s) = some q
      rw [h]
      rfl
    unfold interpretAxisScore
    rw [hs]
    rfl
  refine ⟨coerce, ?_, coerce "economic" "8" 8 rfl⟩
  intro axis v
  constructor
  · intro h
    cases hv : getAxisNumber v with
    | none => rfl
    | some q => exact absurd h (interpretAxisScore_ne_insufficient axis v q hv)
  · exact fun h => interpretAxisScore_nonfinite axis v h

/-- Witness for `interpretAxisScore_numberCoercion`: the coercion hypothesis
discharged at the string `"12"`, which parses to the finite number `12`. -/
theorem interpretAxisScore_numberCoercion_witness :
    interpretAxisScore "social" (.str "12")
      = interpretAxisScore "social" (.num (.finite 12))
  ∧ (interpretAxisScore "social" (.num .posInf) = "Sem dados suficientes para este eixo."
      ↔ getAxisNumber (.num .posInf) = none) := by
  exact ⟨interpretAxisScore_numberCoercion.1 "social" "12" 12 rfl,
    interpretAxisScore_numberCoercion.2.1 "social" (.num .posInf)⟩

/-- C9: `normalizeResultId` returns the trimmed, uppercased input string, so a
key surrounded by whitespace such as `" ideo-ab12-cd34 "` normalizes to
`"IDEO-AB12-CD34"` and passes the format validation. -/
theorem normalizeResultId_trim_upper :
    (∀ s : String, normalizeResultId s = jsToUpper (jsTrim s))
  ∧ normalizeResultId " ideo-ab12-cd34 " = "IDEO-AB12-CD34"
  ∧ resultIdMatches (normalizeResultId " ideo-ab12-cd34 ") = true := by
  refine ⟨?_, by decide, by decide⟩
  intro s
  unfold normalizeResultId
  by_cases h : s = ""
  · rw [if_pos h, h]
    rfl
  · rw [if_neg h]

/-- C4 counterexample: a whitespace-only input fails the key-format
validation, yet `handleRetrieveSubmit` reports the prompt-for-key message, not
the invalid-key-format error, so the claim that every validation failure
reports the invalid-key-format error is false at the input `"   "` (no
network lookup happens either way). -/
theorem handleRetrieveSubmit_empty_counterexample :
    resultIdMatches (normalizeResultId "   ") = false
  ∧ handleRetrieveSubmit "   " ≠ RetrieveAction.invalidFormat
  ∧ handleRetrieveSubmit "   " = RetrieveAction.promptForKey := by
  exact ⟨by decide, by decide, by decide⟩

/-- C4 (amended): `handleRetrieveSubmit` first normalizes the key and
validates it against `IDEO-[A-Z0-9]{4}-[A-Z0-9]{4}`; when validation fails it
performs no network lookup and reports a local error — the prompt-for-key
message when the normalized key is empty, the invalid-key-format error
otherwise; when validation passes the lookup runs on the normalized key. In
particular `"ideo-ab12-cd34"` normalizes and passes, while `"IDEO-AB1-CD34"`
(wrong group length) and `"FOO-AB12-CD34"` (wrong prefix) are rejected before
any network call. -/
theorem handleRetrieveSubmit_validates :
    (∀ s : String,
        (resultIdMatches (normalizeResultId s) = true →
          handleRetrieveSubmit s = RetrieveAction.lookup (normalizeResultId s))
      ∧ (resultIdMatches (normalizeResultId s) = false →
          (handleRetrieveSubmit s =
            if normalizeResultId s = "" then RetrieveAction.promptForKey
            else RetrieveAction.invalidFormat)
          ∧ ∀ k, handleRetrieveSubmit s ≠ RetrieveAction.lookup k))
  ∧ handleRetrieveSubmit "ideo-ab12-cd34" = RetrieveAction.lookup "IDEO-AB12-CD34"
  ∧ handleRetrieveSubmit "IDEO-AB1-CD34" = RetrieveAction.invalidFormat
  ∧ handleRetrieveSubmit "FOO-AB12-CD34" = RetrieveAction.invalidFormat := by
  refine ⟨?_, by decide, by decide, by decide⟩
  intro s
  constructor
  · intro hm
    have he : normalizeResultId s ≠ "" := by
      intro he
      rw [he] at hm
      exact absurd hm (by decide)
    unfold handleRetrieveSubmit
    rw [if_neg he, if_pos hm]
  · intro hm
    unfold handleRetrieveSubmit
    by_cases he : normalizeResultId s = ""
    · rw [if_pos he, if_pos he]
      exact ⟨rfl, fun k h => RetrieveAction.noConfusion h⟩
    · rw [if_neg he, if_neg he, if_neg (by rw [hm]; exact Bool.false_ne_true)]
      exact ⟨rfl, fun k h => RetrieveAction.noConfusion h⟩

/-- Witness for `handleRetrieveSubmit_validates`: its hypotheses discharged at
a passing key and at a failing one. -/
theorem handleRetrieveSubmit_validates_witness :
    handleRetrieveSubmit "ideo-zz99-aa00" = RetrieveAction.lookup "IDEO-ZZ99-AA00"
  ∧ (handleRetrieveSubmit "IDEO-THIS-ISBAD!" =
      if normalizeResultId "IDEO-THIS-ISBAD!" = "" then RetrieveAction.promptForKey
      else RetrieveAction.invalidFormat)
  ∧ handleRetrieveSubmit "IDEO-THIS-ISBAD!" ≠ RetrieveAction.lookup "IDEO-AB12-CD34" := by
  have h := handleRetrieveSubmit_validates
  exact ⟨(h.1 "ideo-zz99-aa00").1 (by decide),
    ((h.1 "IDEO-THIS-ISBAD!").2 (by decide)).1,
    ((h.1 "IDEO-THIS-ISBAD!").2 (by decide)).2 "IDEO-AB12-CD34"⟩

theorem nearWhole_round_eq (q : ℚ) (h : |q - (jsTrunc q : ℚ)| < 1 / 1000) :
    ⌊10 * q + 1 / 2⌋ = 10 * ⌊q + 1 / 2⌋ := by
  unfold jsTrunc at h
  by_cases h0 : 0 ≤ q
  · rw [if_pos h0] at h
    have h1 : (⌊q⌋ : ℚ) ≤ q := Int.floor_le q
    have h2 : q - ⌊q⌋ < 1 / 1000 := by
      rwa [abs_of_nonneg (by linarith)] at h
    have hq : ⌊q + 1 / 2⌋ = ⌊q⌋ := by
      rw [Int.floor_eq_iff]
      constructor <;> linarith
    rw [hq, Int.floor_eq_iff]
    push_cast
    constructor <;> linarith
  · rw [if_neg h0] at h
    have h1 : q ≤ (⌈q⌉ : ℚ) := Int.le_ceil q
    have h2 : (⌈q⌉ : ℚ) - q < 1 / 1000 := by
      rw [abs_of_nonpos (by linarith)] at h
      linarith
    have hq : ⌊q + 1 / 2⌋ = ⌈q⌉ := by
      rw [Int.floor_eq_iff]
      constructor <;> linarith
    rw [hq, Int.floor_eq_iff]
    push_cast
    constructor <;> linarith

theorem formatAxisValue_eq_spec (v : JSNum) : formatAxisValue v = specFormatRounded v := by
  cases v with
  | finite q =>
      simp only [formatAxisValue, specFormatRounded]
      by_cases h : |q - (jsTrunc q : ℚ)| < 1 / 1000
      · rw [if_pos h, nearWhole_round_eq q h]
      · rw [if_neg h]
  | nan => rfl
  | posInf => rfl
  | negInf => rfl

/-- C3 counterexample: `4.96` is not within `0.001` of any whole number, yet
`formatAxisValue` renders it as the integer string `"+5"` with no decimal
place, so the claimed rendering rule (integer string exactly when within
`0.001` of a whole number, otherwise one decimal place) is false at `4.96`. -/
theorem formatAxisValue_claim_counterexample :
    (¬ ∃ n : ℤ, |(124 / 25 : ℚ) - n| < 1 / 1000)
  ∧ formatAxisValue (.finite (124 / 25)) = "+5"
  ∧ "+5".data.contains '.' = false := by
  refine ⟨?_, ?_, by decide⟩
  case refine_2 =>
    rw [formatAxisValue_eq_spec (.finite (124 / 25))]
    have ht : ⌊10 * (124 / 25 : ℚ) + 1 / 2⌋ = (50 : ℤ) := by
      rw [Int.floor_eq_iff]
      constructor <;> norm_num
    simp only [specFormatRounded, ht]
    rw [if_pos (by norm_num : (0 : ℤ) < 50)]
    decide
  rintro ⟨n, hn⟩
  rw [abs_lt] at hn
  obtain ⟨hlo, hhi⟩ := hn
  have h3 : (4 : ℤ) < n := by
    exact_mod_cast (by linarith : (4 : ℚ) < (n : ℚ))
  have h4 : n < 5 := by
    exact_mod_cast (by linarith : (n : ℚ) < (5 : ℚ))
  omega

/-- C3 (amended): `formatAxisValue` returns `"--"` for non-finite input;
otherwise it rounds the value to one decimal place (ties toward positive
infinity) and renders the result as an integer string when the rounded value
is whole and with one decimal place otherwise, with a leading `+` exactly when
the rounded value is positive. In particular `4.9995` yields `"+5"`, `-3.2`
yields `"-3.2"`, and `NaN` yields `"--"` (a value such as `4.96`, though not
within `0.001` of a whole number, also renders as the integer string `"+5"`
because its one-decimal rounding is whole). -/
theorem formatAxisValue_rounds_to_tenths :
    (∀ v : JSNum, formatAxisValue v = specFormatRounded v)
  ∧ formatAxisValue (.finite (9999 / 2000)) = "+5"
  ∧ formatAxisValue (.finite (-16 / 5)) = "-3.2"
  ∧ formatAxisValue .nan = "--" := by
  refine ⟨formatAxisValue_eq_spec, ?_, ?_, rfl⟩
  · rw [formatAxisValue_eq_spec (.finite (9999 / 2000))]
    have ht : ⌊10 * (9999 / 2000 : ℚ) + 1 / 2⌋ = (50 : ℤ) := by
      rw [Int.floor_eq_iff]
      constructor <;> norm_num
    simp only [specFormatRounded, ht]
    rw [if_pos (by norm_num : (0 : ℤ) < 50)]
    decide
  · rw [formatAxisValue_eq_spec (.finite (-16 / 5))]
    have ht : ⌊10 * (-16 / 5 : ℚ) + 1 / 2⌋ = (-32 : ℤ) := by
      rw [Int.floor_eq_iff]
      constructor <;> norm_num
    simp only [specFormatRounded, ht]
    rw [if_neg (by norm_num : ¬ (0 : ℤ) < -32)]
    decide

theorem step_nav_answers (s : AppState) (o : Op) (h : o = Op.prevBtn ∨ o = Op.nextBtn) :
    (step s o).answers = s.answers := by
  rcases h with rfl | rfl <;> (simp only [step]; split <;> rfl)

theorem step_retrieve_answers (s : AppState) (data : ResultData) :
    (step s (.retrieveOk data)).answers = data.answers.getD [] := by
  simp only [step, handleResult]
  cases data.answers <;> rfl

theorem setAnswer_ne_nil (m : AnswerMap) (k : String) (v : Int) (h : m ≠ []) :
    setAnswer m k v ≠ [] := by
  unfold setAnswer
  split
  · simpa using h
  · simp

theorem submitAnswers_answers (s : AppState) (sr : SubmitFetch) (sv : SaveOutcome) :
    ((submitAnswers s sr sv).1).answers = s.answers := by
  cases sr with
  | failed => rfl
  | ok data => cases sv <;> rfl

theorem foldl_nav_answers :
    ∀ (navs : List Op), (∀ o ∈ navs, o = Op.prevBtn ∨ o = Op.nextBtn) →
      ∀ t : AppState, (navs.foldl step t).answers = t.answers := by
  intro navs
  induction navs with
  | nil => intro _ t; rfl
  | cons o rest ih =>
      intro h t
      rw [List.foldl_cons,
        ih (fun x hx => h x (List.mem_cons_of_mem o hx)) (step t o),
        step_nav_answers t o (h o (List.mem_cons_self o rest))]

/-- C5: when the scoring call succeeds but the subsequent save-result call
fails, the scored result (axes and profile) is still delivered to the display
path via `handleResult`, the stored latest result key is absent, and the
persistence failure surfaces only as a non-fatal warning: the submission as a
whole does not fail, and the local answers are untouched. -/
theorem submitAnswers_persistFailure_nonfatal :
    ∀ (s : AppState) (data : ScoreResponse),
      ((submitAnswers s (.ok data) .failed).1).latestResult
          = some (LatestResult.mk (data.axes.getD []) (data.profile.getD emptyProfile) s.answers)
    ∧ ((submitAnswers s (.ok data) .failed).1).latestResultId = none
    ∧ ((submitAnswers s (.ok data) .failed).2).displayedResult = true
    ∧ ((submitAnswers s (.ok data) .failed).2).keyWarning = true
    ∧ ((submitAnswers s (.ok data) .failed).2).fatalError = false
    ∧ ((submitAnswers s (.ok data) .failed).1).answers = s.answers := by
  intro s data
  exact ⟨rfl, rfl, rfl, rfl, rfl, rfl⟩

/-- C6: a successful retrieval replaces the local answer map with the answers
contained in the retrieved result, unconditionally overwriting interim local
edits; page navigation leaves the answer map untouched and recording an answer
never empties it (only the explicit reset clears it); in the round-trip
scenario, retrieving a result whose stored answers were `{q1: 2, q2: -1}`
leaves the answer map equal to `{q1: 2, q2: -1}`. -/
theorem answerMap_retrieval_roundtrip :
    (∀ (s : AppState) (data : ResultData) (m : AnswerMap), data.answers = some m →
        (step s (.retrieveOk data)).answers = m)
  ∧ (∀ (s : AppState) (o : Op), o = Op.prevBtn ∨ o = Op.nextBtn →
        (step s o).answers = s.answers)
  ∧ (∀ (s : AppState) (qid : String) (v : Int), s.answers ≠ [] →
        (step s (.record qid v)).answers ≠ [])
  ∧ (∀ s : AppState,
      (step s (.retrieveOk (ResultData.mk
          (some [("economic", .finite 10), ("social", .finite (-2))])
          (some (ProfileData.mk (some "p") (some "Perfil")))
          (some "IDEO-AB12-CD34") none
          (some [("q1", 2), ("q2", -1)])))).answers = [("q1", 2), ("q2", -1)]) := by
  refine ⟨?_, fun s o h => step_nav_answers s o h, ?_, ?_⟩
  · intro s data m h
    rw [step_retrieve_answers, h]
    rfl
  · intro s qid v h
    exact setAnswer_ne_nil s.answers qid v h
  · intro s
    rfl

/-- Witness for `answerMap_retrieval_roundtrip`: its hypotheses discharged at
a concrete state holding an interim edit `{q1: 5}`, a concrete retrieved
result, and a concrete navigation click. -/
theorem answerMap_retrieval_roundtrip_witness :
    (step (AppState.mk [("q1", 5)] 1 [] none none)
        (.retrieveOk (ResultData.mk none none none none
          (some [("q1", 2), ("q2", -1)])))).answers = [("q1", 2), ("q2", -1)]
  ∧ (step (AppState.mk [("q1", 5)] 1 [] none none) Op.prevBtn).answers = [("q1", 5)]
  ∧ (step (AppState.mk [("q1", 5)] 1 [] none none) (Op.record "q2" 1)).answers ≠ [] := by
  have h := answerMap_retrieval_roundtrip
  exact ⟨h.1 _ _ [("q1", 2), ("q2", -1)] rfl,
    h.2.1 _ Op.prevBtn (Or.inl rfl),
    h.2.2.1 _ "q2" 1 (by simp)⟩

/-- C7: recording answers and then navigating with the prev/next buttons any
number of times never alters the answer map; the submission that a next click
on the last page triggers also preserves it. -/
theorem navigation_preserves_answers :
    (∀ (s : AppState) (recs : List (String × Int)) (navs : List Op),
        (∀ o ∈ navs, o = Op.prevBtn ∨ o = Op.nextBtn) →
        (navs.foldl step (recs.foldl (fun st p => step st (.record p.1 p.2)) s)).answers
          = (recs.foldl (fun st p => step st (.record p.1 p.2)) s).answers)
  ∧ (∀ (s : AppState) (sr : SubmitFetch) (sv : SaveOutcome),
        ((submitAnswers s sr sv).1).answers = s.answers) := by
  exact ⟨fun s recs navs hnav => foldl_nav_answers navs hnav _,
    submitAnswers_answers⟩

/-- Witness for `navigation_preserves_answers`: the navigation hypothesis
discharged at a concrete recording sequence and a concrete click sequence. -/
theorem navigation_preserves_answers_witness :
    ([Op.nextBtn, Op.prevBtn, Op.nextBtn].foldl step
        ([("q1", (2 : Int)), ("q2", -1)].foldl
          (fun st p => step st (.record p.1 p.2))
          (AppState.mk [] 0 [Page.mk "economic" [], Page.mk "social" []] none none))).answers
      = ([("q1", (2 : Int)), ("q2", -1)].foldl
          (fun st p => step st (.record p.1 p.2))
          (AppState.mk [] 0 [Page.mk "economic" [], Page.mk "social" []] none none)).answers := by
  exact navigation_preserves_answers.1 _ _ [Op.nextBtn, Op.prevBtn, Op.nextBtn] (by decide)

/-- Keys of the ordered dictionary, in insertion order. -/
def keysOf (m : List (String × List Question)) : List String :=
  m.map Prod.fst

theorem lookupAxis_insert (m : List (String × List Question)) (a b : String) (q : Question) :
    lookupAxis (insertQuestion m a q) b =
      if b = a then some ((lookupAxis m a).getD [] ++ [q]) else lookupAxis m b := by
  induction m with
  | nil =>
      by_cases hba : b = a
      · subst hba
        simp [insertQuestion, lookupAxis]
      · simp [insertQuestion, lookupAxis, hba, Ne.symm hba]
  | cons hd rest ih =>
      obtain ⟨c, l⟩ := hd
      by_cases hca : c = a
      · subst hca
        by_cases hba : b = c
        · subst hba
          simp [insertQuestion, lookupAxis]
        · simp [insertQuestion, lookupAxis, hba, Ne.symm hba]
      · by_cases hcb : c = b
        · have hba : ¬ b = a := fun h => hca (hcb.trans h)
          simp [insertQuestion, lookupAxis, hca, hcb, hba]
        · simp [insertQuestion, lookupAxis, hca, hcb, ih]

theorem lookupAxis_fold (qs : List Question) :
    ∀ (m : List (String × List Question)) (a : String),
      lookupAxis (qs.foldl (fun acc q => insertQuestion acc (effAxis q) q) m) a =
        if a ∈ qs.map effAxis ∨ (lookupAxis m a).isSome
        then some ((lookupAxis m a).getD [] ++ qs.filter (fun q => decide (effAxis q = a)))
        else none := by
  induction qs with
  | nil =>
      intro m a
      cases h : lookupAxis m a <;> simp [h]
  | cons q rest ih =>
      intro m a
      rw [List.foldl_cons, ih, lookupAxis_insert]
      by_cases hqa : a = effAxis q
      · subst hqa
        cases h : lookupAxis m (effAxis q) <;>
          simp [h, List.filter_cons, List.append_assoc]
      · have hqa2 : ¬ effAxis q = a := fun h => hqa h.symm
        simp [hqa, hqa2, List.filter_cons]

theorem keysOf_insert (m : List (String × List Question)) (a : String) (q : Question) :
    keysOf (insertQuestion m a q) = if a ∈ keysOf m then keysOf m else keysOf m ++ [a] := by
  induction m with
  | nil => simp [insertQuestion, keysOf]
  | cons hd rest ih =>
      obtain ⟨c, l⟩ := hd
      by_cases hca : c = a
      · subst hca
        simp [insertQuestion, keysOf]
      · have hac : ¬ a = c := fun h => hca h.symm
        simp only [insertQuestion, if_neg hca, keysOf, List.map_cons] at ih ⊢
        rw [ih]
        by_cases hmem : a ∈ rest.map Prod.fst <;> simp [hmem, hac]

theorem keysOf_fold (qs : List Question) :
    ∀ m, keysOf (qs.foldl (fun acc q => insertQuestion acc (effAxis q) q) m) =
      keysOf m ++ firstSeenFrom (keysOf m) (qs.map effAxis) := by
  induction qs with
  | nil => intro m; simp [firstSeenFrom]
  | cons q rest ih =>
      intro m
      rw [List.foldl_cons, ih, keysOf_insert]
      by_cases h : effAxis q ∈ keysOf m
      · rw [if_pos h]
        simp [firstSeenFrom, h]
      · rw [if_neg h]
        simp [firstSeenFrom, h, List.append_assoc]

theorem mem_firstSeenFrom (x : String) :
    ∀ (axs seen : List String), x ∈ firstSeenFrom seen axs ↔ x ∈ axs ∧ x ∉ seen := by
  intro axs
  induction axs with
  | nil => intro seen; simp [firstSeenFrom]
  | cons a rest ih =>
      intro seen
      by_cases ha : a ∈ seen
      · rw [firstSeenFrom, if_pos ha, ih]
        constructor
        · rintro ⟨h1, h2⟩
          exact ⟨List.mem_cons_of_mem a h1, h2⟩
        · rintro ⟨h1, h2⟩
          rcases List.mem_cons.mp h1 with h1 | h1
          · exact absurd (h1 ▸ ha) h2
          · exact ⟨h1, h2⟩
      · rw [firstSeenFrom, if_neg ha, List.mem_cons, ih (seen ++ [a])]
        constructor
        · rintro (rfl | ⟨h1, h2⟩)
          · exact ⟨List.mem_cons_self _ _, ha⟩
          · exact ⟨List.mem_cons_of_mem _ h1, fun hs => h2 (List.mem_append_left _ hs)⟩
        · rintro ⟨h1, h2⟩
          by_cases hxa : x = a
          · exact Or.inl hxa
          · rcases List.mem_cons.mp h1 with h1 | h1
            · exact absurd h1 hxa
            · refine Or.inr ⟨h1, fun hs => ?_⟩
              rcases List.mem_append.mp hs with hs | hs
              · exact h2 hs
              · exact hxa (List.mem_singleton.mp hs)

theorem nodup_firstSeenFrom :
    ∀ (axs seen : List String), (firstSeenFrom seen axs).Nodup := by
  intro axs
  induction axs with
  | nil => intro seen; simp [firstSeenFrom]
  | cons a rest ih =>
      intro seen
      by_cases ha : a ∈ seen
      · rw [firstSeenFrom, if_pos ha]
        exact ih seen
      · rw [firstSeenFrom, if_neg ha]
        rw [List.nodup_cons]
        refine ⟨?_, ih (seen ++ [a])⟩
        intro hmem
        rw [mem_firstSeenFrom] at hmem
        exact hmem.2 (by simp)

theorem lookupAxis_groupByAxis (qs : List Question) (a : String) :
    lookupAxis (groupByAxis qs) a =
      if a ∈ qs.map effAxis then some (qs.filter (fun q => decide (effAxis q = a))) else none := by
  unfold groupByAxis
  rw [lookupAxis_fold]
  simp [lookupAxis]

theorem keysOf_groupByAxis (qs : List Question) :
    keysOf (groupByAxis qs) = firstSeenFrom [] (qs.map effAxis) := by
  unfold groupByAxis
  rw [keysOf_fold]
  rfl

theorem lookupAxis_of_mem :
    ∀ (m : List (String × List Question)), (keysOf m).Nodup →
      ∀ (a : String) (l : List Question), (a, l) ∈ m → lookupAxis m a = some l := by
  intro m
  induction m with
  | nil => intro _ a l hm; cases hm
  | cons hd rest ih =>
      obtain ⟨c, kl⟩ := hd
      intro hnd a l hm
      have hnd2 := hnd
      simp only [keysOf, List.map_cons, List.nodup_cons] at hnd2
      rcases List.mem_cons.mp hm with heq | hmem
      · injection heq with h1 h2
        subst h1
        subst h2
        simp [lookupAxis]
      · have hc : ¬ c = a := by
          intro hca
          subst hca
          exact hnd2.1 (List.mem_map_of_mem Prod.fst hmem)
        rw [lookupAxis, if_neg hc]
        exact ih hnd2.2 a l hmem

theorem map_axis_filterMap (g : List (String × List Question)) :
    ∀ (axs : List String),
      ((axs.filterMap fun a => (lookupAxis g a).map fun l => Page.mk a l).map Page.axis)
        = axs.filter (fun a => (lookupAxis g a).isSome) := by
  intro axs
  induction axs with
  | nil => rfl
  | cons a rest ih =>
      cases h : lookupAxis g a <;> simp [List.filterMap_cons, List.filter_cons, h, ih]

theorem map_axis_rest :
    ∀ (m : List (String × List Question)),
      (((m.filter fun p => decide (p.1 ∉ axisOrder)).map fun p => Page.mk p.1 p.2).map Page.axis)
        = (keysOf m).filter (fun a => decide (a ∉ axisOrder)) := by
  intro m
  induction m with
  | nil => rfl
  | cons hd rest ih =>
      obtain ⟨c, l⟩ := hd
      simp only [keysOf, List.map_cons, List.filter_cons] at ih ⊢
      by_cases hc : c ∈ axisOrder
      · rw [if_neg (by simpa using hc), if_neg (by simpa using hc)]
        exact ih
      · rw [if_pos (by simpa using hc), if_pos (by simpa using hc)]
        simp only [List.map_cons]
        exact congrArg (List.cons c) ih

theorem buildPages_axes (qs : List Question) :
    (buildPagesByAxis qs).map Page.axis
      = axisOrder.filter (fun a => decide (a ∈ qs.map effAxis))
        ++ (firstSeenFrom [] (qs.map effAxis)).filter (fun a => decide (a ∉ axisOrder)) := by
  unfold buildPagesByAxis
  rw [List.map_append, map_axis_filterMap, map_axis_rest, keysOf_groupByAxis]
  congr 1
  apply List.filter_congr
  intro a _
  rw [lookupAxis_groupByAxis]
  by_cases h : a ∈ qs.map effAxis <;> simp [h]

theorem buildPages_questions (qs : List Question) :
    ∀ p ∈ buildPagesByAxis qs, p.questions = qs.filter (fun q => decide (effAxis q = p.axis)) := by
  intro p hp
  unfold buildPagesByAxis at hp
  rcases List.mem_append.mp hp with h1 | h2
  · obtain ⟨a, ha, hpa⟩ := List.mem_filterMap.mp h1
    cases hl : lookupAxis (groupByAxis qs) a with
    | none => rw [hl] at hpa; cases hpa
    | some l =>
        rw [hl] at hpa
        obtain rfl : Page.mk a l = p := Option.some.inj hpa
        rw [lookupAxis_groupByAxis] at hl
        by_cases hmem : a ∈ qs.map effAxis
        · rw [if_pos hmem] at hl
          exact (Option.some.inj hl).symm
        · rw [if_neg hmem] at hl
          cases hl
  · obtain ⟨pr, hpr, hppr⟩ := List.mem_map.mp h2
    have hmem : pr ∈ groupByAxis qs := List.mem_of_mem_filter hpr
    have hlk : lookupAxis (groupByAxis qs) pr.1 = some pr.2 := by
      apply lookupAxis_of_mem (groupByAxis qs)
        (by rw [keysOf_groupByAxis]; exact nodup_firstSeenFrom _ _)
      exact hmem
    rw [lookupAxis_groupByAxis] at hlk
    by_cases hin : pr.1 ∈ qs.map effAxis
    · rw [if_pos hin] at hlk
      have hq : pr.2 = qs.filter (fun q => decide (effAxis q = pr.1)) :=
        (Option.some.inj hlk).symm
      rw [← hppr]
      exact hq
    · rw [if_neg hin] at hlk
      cases hlk

theorem pagesQuestions_eq_filterConcat (qs : List Question) :
    ∀ (ps : List Page),
      (∀ p ∈ ps, p.questions = qs.filter (fun q => decide (effAxis q = p.axis))) →
      pagesQuestions ps = filterConcat qs (ps.map Page.axis) := by
  intro ps
  induction ps with
  | nil => intro _; rfl
  | cons p rest ih =>
      intro h
      show p.questions ++ pagesQuestions rest = _
      rw [List.map_cons, filterConcat, h p (List.mem_cons_self p rest),
        ih (fun x hx => h x (List.mem_cons_of_mem p hx))]

theorem filterConcat_filter (qs : List Question) (a : String) :
    ∀ (axs : List String), a ∉ axs →
      filterConcat (qs.filter fun q => !(decide (effAxis q = a))) axs = filterConcat qs axs := by
  intro axs
  induction axs with
  | nil => intro _; rfl
  | cons b rest ih =>
      intro hb
      have hab : a ≠ b := fun h => hb (h ▸ List.mem_cons_self b rest)
      rw [filterConcat, filterConcat, ih (fun h => hb (List.mem_cons_of_mem b h))]
      congr 1
      rw [List.filter_filter]
      apply List.filter_congr
      intro q _
      by_cases h : effAxis q = b
      · simp [h, Ne.symm hab]
      · simp [h]

theorem filterConcat_perm :
    ∀ (axs : List String) (qs : List Question), axs.Nodup → (∀ q ∈ qs, effAxis q ∈ axs) →
      (filterConcat qs axs).Perm qs := by
  intro axs
  induction axs with
  | nil =>
      intro qs _ hcov
      cases qs with
      | nil => exact List.Perm.refl _
      | cons q rest => exact absurd (hcov q (List.mem_cons_self q rest)) (List.not_mem_nil _)
  | cons a rest ih =>
      intro qs hnd hcov
      rw [filterConcat]
      have hna : a ∉ rest := (List.nodup_cons.mp hnd).1
      rw [← filterConcat_filter qs a rest hna]
      have hcov2 : ∀ q ∈ qs.filter (fun q => !(decide (effAxis q = a))), effAxis q ∈ rest := by
        intro q hq
        obtain ⟨hq1, hq2⟩ := List.mem_filter.mp hq
        have hne : ¬ effAxis q = a := by simpa using hq2
        rcases List.mem_cons.mp (hcov q hq1) with h | h
        · exact absurd h hne
        · exact h
      have hperm := ih (qs.filter fun q => !(decide (effAxis q = a)))
        (List.nodup_cons.mp hnd).2 hcov2
      exact (List.Perm.append_left _ hperm).trans (List.filter_append_perm _ qs)

theorem effAxis_mem_pages (qs : List Question) (q : Question) (hq : q ∈ qs) :
    effAxis q ∈ (buildPagesByAxis qs).map Page.axis := by
  rw [buildPages_axes]
  by_cases h : effAxis q ∈ axisOrder
  · apply List.mem_append_left
    rw [List.mem_filter]
    exact ⟨h, by simpa using List.mem_map_of_mem effAxis hq⟩
  · apply List.mem_append_right
    rw [List.mem_filter]
    constructor
    · rw [mem_firstSeenFrom]
      exact ⟨List.mem_map_of_mem effAxis hq, List.not_mem_nil _⟩
    · simpa using h

theorem buildPages_axes_nodup (qs : List Question) :
    ((buildPagesByAxis qs).map Page.axis).Nodup := by
  rw [buildPages_axes]
  apply List.Nodup.append
  · exact List.Nodup.filter _ (by decide : axisOrder.Nodup)
  · exact List.Nodup.filter _ (nodup_firstSeenFrom _ _)
  · intro a ha hb
    obtain ⟨ha1, _⟩ := List.mem_filter.mp ha
    obtain ⟨_, hb2⟩ := List.mem_filter.mp hb
    have hnb : a ∉ axisOrder := by simpa using hb2
    exact hnb ha1

theorem buildPages_perm (qs : List Question) :
    (pagesQuestions (buildPagesByAxis qs)).Perm qs := by
  rw [pagesQuestions_eq_filterConcat qs _ (buildPages_questions qs)]
  exact filterConcat_perm _ qs (buildPages_axes_nodup qs)
    (fun q hq => effAxis_mem_pages qs q hq)

/-- C1: `buildPagesByAxis` partitions the input questions — the concatenation
of the page question lists is a permutation of the input, so no question is
duplicated or dropped; the page axis list is the canonical order (economic,
social, community, method, pragmatism) restricted to the effective axes
present, followed by the remaining effective axes in order of first appearance
in the input; and each page carries exactly the input questions of its axis,
in input order. -/
theorem buildPagesByAxis_partition (qs : List Question) :
    (pagesQuestions (buildPagesByAxis qs)).Perm qs
  ∧ (buildPagesByAxis qs).map Page.axis
      = axisOrder.filter (fun a => decide (a ∈ qs.map effAxis))
        ++ (firstSeenFrom [] (qs.map effAxis)).filter (fun a => decide (a ∉ axisOrder))
  ∧ ∀ p ∈ buildPagesByAxis qs,
      p.questions = qs.filter (fun q => decide (effAxis q = p.axis)) :=
  ⟨buildPages_perm qs, buildPages_axes qs, buildPages_questions qs⟩

/-- A concrete mixed question set used to witness the pagination theorem:
canonical axes out of order, an unknown axis, and a missing axis. -/
def demoQuestions : List Question :=
  [Question.mk "a" (some "social") "t1",
   Question.mk "b" (some "zz") "t2",
   Question.mk "c" (some "economic") "t3",
   Question.mk "d" none "t4",
   Question.mk "e" (some "social") "t5"]

/-- Witness for `buildPagesByAxis_partition`: the partition instantiated on
`demoQuestions`, with the per-page hypothesis discharged at the economic
page. -/
theorem buildPagesByAxis_partition_witness :
    (pagesQuestions (buildPagesByAxis demoQuestions)).Perm demoQuestions
  ∧ (Page.mk "economic" [Question.mk "c" (some "economic") "t3"]).questions
      = demoQuestions.filter (fun q => decide (effAxis q
          = (Page.mk "economic" [Question.mk "c" (some "economic") "t3"]).axis)) := by
  have h := buildPagesByAxis_partition demoQuestions
  exact ⟨h.1,
    h.2.2 (Page.mk "economic" [Question.mk "c" (some "economic") "t3"]) (by decide)⟩

/-- C8 counterexample: a question whose axis is the unknown non-empty
identifier `"foo"` is grouped under `"foo"` itself, not under the fallback
axis `"other"`, so the claim that every unrecognized axis identifier falls
back to `"other"` for grouping is false. -/
theorem unknownAxis_grouping_counterexample :
    buildPagesByAxis [Question.mk "q1" (some "foo") "t"]
      = [Page.mk "foo" [Question.mk "q1" (some "foo") "t"]]
  ∧ ("foo" : String) ≠ "other"
  ∧ effAxis (Question.mk "q1" (some "foo") "t") = "foo" := by
  exact ⟨by decide, by decide, rfl⟩

/-- C8 (amended): page grouping uses `q.axis || "other"`, so a question whose
axis field is missing or empty (falsy) is assigned the fallback axis
`"other"`, while a question with any non-empty axis identifier — recognized or
not — is grouped under that identifier itself; every question lands on the
page whose axis is its effective grouping key. -/
theorem effAxis_fallback_spec :
    (∀ q : Question, q.axis = none ∨ q.axis = some "" → effAxis q = "other")
  ∧ (∀ (q : Question) (a : String), q.axis = some a → a ≠ "" → effAxis q = a)
  ∧ (∀ (qs : List Question) (q : Question), q ∈ qs →
      ∃ p ∈ buildPagesByAxis qs, p.axis = effAxis q ∧ q ∈ p.questions) := by
  refine ⟨?_, ?_, ?_⟩
  · rintro q (h | h) <;> simp [effAxis, h]
  · intro q a h hne
    simp [effAxis, h, hne]
  · intro qs q hq
    have hmem := effAxis_mem_pages qs q hq
    obtain ⟨p, hp, hpa⟩ := List.mem_map.mp hmem
    refine ⟨p, hp, hpa, ?_⟩
    rw [buildPages_questions qs p hp, List.mem_filter]
    exact ⟨hq, by simp [hpa]⟩

/-- Witness for `effAxis_fallback_spec`: its hypotheses discharged at a
question with a missing axis, at one with the unknown axis `"zz"`, and at a
concrete one-question set. -/
theorem effAxis_fallback_spec_witness :
    effAxis (Question.mk "d" none "t") = "other"
  ∧ effAxis (Question.mk "b" (some "zz") "t") = "zz"
  ∧ ∃ p ∈ buildPagesByAxis [Question.mk "b" (some "zz") "t"],
      p.axis = effAxis (Question.mk "b" (some "zz") "t")
        ∧ Question.mk "b" (some "zz") "t" ∈ p.questions := by
  have h := effAxis_fallback_spec
  exact ⟨h.1 (Question.mk "d" none "t") (Or.inl rfl),
    h.2.1 (Question.mk "b" (some "zz") "t") "zz" rfl (by decide),
    h.2.2 [Question.mk "b" (some "zz") "t"] (Question.mk "b" (some "zz") "t")
      (List.mem_cons_self _ _)⟩

end Compass
